import Mathlib

/-!
Verification of the hk_newspaper_scraper repository.

This file gives a shallow embedding of the three source files
(TaKungPao_scraper.py, am730_scraper.py, controllers/azure_storage.py)
and proves or refutes the frozen claims about them.

External effects (HTTP responses, PDF contents, the Azure blob store,
the local temp directory) are modelled as explicit environments and
explicit state threaded through the translated control flow.  Machine
strings are modelled as Lean strings or lists of characters; bytes are
abstracted as natural numbers.
-/

namespace HKScraper

/-! ### Calendar dates

Python `datetime` values are modelled as year/month/day triples with
Gregorian validity, together with the day-successor function implemented
by `datetime + timedelta(days=1)`. -/

structure Date where
  year : Nat
  month : Nat
  day : Nat
deriving DecidableEq, Repr

/-- Gregorian leap-year rule, as used by Python `datetime`. -/
def isLeap (y : Nat) : Bool :=
  (y % 4 == 0 && y % 100 != 0) || y % 400 == 0

def daysInMonth (y m : Nat) : Nat :=
  if m = 2 then (if isLeap y then 29 else 28)
  else if m = 4 ∨ m = 6 ∨ m = 9 ∨ m = 11 then 30
  else 31

def Date.valid (d : Date) : Bool :=
  1 ≤ d.month && d.month ≤ 12 && 1 ≤ d.day && d.day ≤ daysInMonth d.year d.month

/-- `d + timedelta(days=1)` on valid dates. -/
def nextDay (d : Date) : Date :=
  if d.day < daysInMonth d.year d.month then ⟨d.year, d.month, d.day + 1⟩
  else if d.month < 12 then ⟨d.year, d.month + 1, 1⟩
  else ⟨d.year + 1, 1, 1⟩

/-! ### Decimal formatting

`strftime` fields and Python format specifiers are modelled over lists
of characters.  `natDigits n` is the decimal representation of `n`,
most significant digit first (fuel-based so that it reduces in the
kernel). -/

def digitChar (n : Nat) : Char := Char.ofNat (48 + n)

def natDigitsAux : Nat → Nat → List Char
  | 0, _ => []
  | fuel + 1, n =>
    if n < 10 then [digitChar n]
    else natDigitsAux fuel (n / 10) ++ [digitChar (n % 10)]

def natDigits (n : Nat) : List Char := natDigitsAux (n + 1) n

/-- Zero-pad on the left to width `w` (Python `{:0wd}` semantics:
numbers with more than `w` digits are kept in full). -/
def padTo (w : Nat) (s : List Char) : List Char :=
  List.replicate (w - s.length) '0' ++ s

def pad2 (n : Nat) : List Char := padTo 2 (natDigits n)
def pad3 (n : Nat) : List Char := padTo 3 (natDigits n)
def pad4 (n : Nat) : List Char := padTo 4 (natDigits n)

/-- `date.strftime("%Y-%m-%d")`: the year is printed in full (all dates
handled by the scrapers have 4-digit years), month and day are
zero-padded to two digits. -/
def formatDateISO (d : Date) : List Char :=
  natDigits d.year ++ ('-' :: pad2 d.month) ++ ('-' :: pad2 d.day)

/-! ### Parsing (`datetime.strptime(s, "%Y-%m-%d")`) -/

def parseNatAcc : Nat → List Char → Option Nat
  | acc, [] => some acc
  | acc, c :: cs =>
    if c.isDigit then parseNatAcc (acc * 10 + (c.toNat - 48)) cs else none

def parseNatChars (cs : List Char) : Option Nat :=
  match cs with
  | [] => none
  | _ :: _ => parseNatAcc 0 cs

/-- Split a character list at every dash. -/
def splitDash : List Char → List (List Char)
  | [] => [[]]
  | c :: cs =>
    if c = '-' then [] :: splitDash cs
    else
      match splitDash cs with
      | [] => [[c]]
      | f :: rest => (c :: f) :: rest

/-- Assembles the three dash-separated fields of a `%Y-%m-%d` parse:
the CPython pattern requires exactly four digits for the year, one or
two digits for month and day, then the `datetime` constructor
validates the calendar date. -/
def parseDateFields : List (List Char) → Option Date
  | [ys, ms, ds] =>
    if ys.length = 4 ∧ (ms.length = 1 ∨ ms.length = 2) ∧
        (ds.length = 1 ∨ ds.length = 2) then
      match parseNatChars ys, parseNatChars ms, parseNatChars ds with
      | some y, some m, some d =>
        if 1 ≤ y ∧ 1 ≤ m ∧ m ≤ 12 ∧ 1 ≤ d ∧ d ≤ daysInMonth y m then
          some ⟨y, m, d⟩
        else none
      | _, _, _ => none
    else none
  | _ => none

/-- `datetime.strptime(s, "%Y-%m-%d")`.  Returns `none` where Python
raises `ValueError`. -/
def parseDateChars (s : List Char) : Option Date :=
  parseDateFields (splitDash s)

/-! ### Checkpoint file (TaKungPao_scraper.py, save_checkpoint / load_checkpoint)

The checkpoint file holds the single line written by `save_checkpoint`;
the file is modelled as `Option (List Char)` (`none` = file absent). -/

/-- `save_checkpoint(date)`: writes `date.strftime("%Y-%m-%d")`. -/
def save_checkpoint (d : Date) : List Char := formatDateISO d

/-- `load_checkpoint()`: reads the file, parses it with
`strptime("%Y-%m-%d")` and returns the parsed date plus one day.  Any
exception (missing file, parse failure, or the `OverflowError` raised
by `datetime(9999,12,31) + timedelta(days=1)`) is caught and `None` is
returned. -/
def load_checkpoint (file : Option (List Char)) : Option Date :=
  match file with
  | none => none
  | some s =>
    match parseDateChars s with
    | none => none
    | some d => if d = ⟨9999, 12, 31⟩ then none else some (nextDay d)

/-! ### Resume logic (TaKungPao_scraper.py, main) -/

def START_DATE : Date := ⟨2018, 10, 17⟩

/-- The checkpoint value that `main` deliberately overrides (comment in
the source: if the checkpoint file contained 2018-06-09,
`load_checkpoint` returns 2018-06-10). -/
def PROBLEM_CHECKPOINT_DATE : Date := ⟨2018, 6, 10⟩

/-- The `start_from_date` computation in `main`: the loaded checkpoint
is used as the starting date unless it is absent or equals
`PROBLEM_CHECKPOINT_DATE`, in which case `START_DATE` is used. -/
def computeStartDate (loaded : Option Date) : Date :=
  if loaded = some PROBLEM_CHECKPOINT_DATE then START_DATE
  else
    match loaded with
    | some d => d
    | none => START_DATE

/-! ### Azure blob storage (controllers/azure_storage.py)

The blob container is modelled as an association list from blob names
to abstract byte contents (naturals).  Each method of
`AzureBlobStorage` builds its own `blob_name` string; the four
constructions are transcribed separately so that their agreement is a
theorem, not a definition. -/

def strOf (cs : List Char) : String := String.mk cs

/-- The `blob_name` f-string of `upload_image`:
publisher, then the strftime year/month/day fields, then the page number
zero-padded to three digits, then the extension. -/
def upload_blob_name (pub : String) (d : Date) (page : Nat) (ext : String) : String :=
  pub ++ "/" ++ strOf (natDigits d.year) ++ "/" ++ strOf (pad2 d.month) ++ "/" ++
    strOf (pad2 d.day) ++ "/" ++ strOf (pad3 page) ++ "." ++ ext

/-- The `blob_name` f-string of `download_image`. -/
def download_blob_name (pub : String) (d : Date) (page : Nat) (ext : String) : String :=
  pub ++ "/" ++ strOf (natDigits d.year) ++ "/" ++ strOf (pad2 d.month) ++ "/" ++
    strOf (pad2 d.day) ++ "/" ++ strOf (pad3 page) ++ "." ++ ext

/-- The `blob_name` f-string of `delete_image`. -/
def delete_blob_name (pub : String) (d : Date) (page : Nat) (ext : String) : String :=
  pub ++ "/" ++ strOf (natDigits d.year) ++ "/" ++ strOf (pad2 d.month) ++ "/" ++
    strOf (pad2 d.day) ++ "/" ++ strOf (pad3 page) ++ "." ++ ext

/-- The `blob_name` f-string of `blob_exists`. -/
def exists_blob_name (pub : String) (d : Date) (page : Nat) (ext : String) : String :=
  pub ++ "/" ++ strOf (natDigits d.year) ++ "/" ++ strOf (pad2 d.month) ++ "/" ++
    strOf (pad2 d.day) ++ "/" ++ strOf (pad3 page) ++ "." ++ ext

abbrev BlobStore := List (String × Nat)

/-- Overwriting write: the new pair shadows (and removes) any prior
binding of the key. -/
def setKey (st : BlobStore) (k : String) (v : Nat) : BlobStore :=
  (k, v) :: st.filter (fun kv => kv.1 != k)

def getKey (st : BlobStore) (k : String) : Option Nat :=
  (st.find? (fun kv => kv.1 == k)).map (fun kv => kv.2)

def hasKey (st : BlobStore) (k : String) : Bool :=
  st.any (fun kv => kv.1 == k)

/-- The URL exposed by the SDK blob client for a blob name (account and
container are fixed for the whole run). -/
def blobUrl (name : String) : String :=
  "https://hknews.blob.core.windows.net/epaper/" ++ name

/-- Failure behaviour of the two Azure SDK calls made inside
`upload_image`: whether `blob_client.exists()` raises and whether
`blob_client.upload_blob(...)` raises. -/
structure AzEnv where
  existsRaises : Bool
  uploadRaises : Bool

/-- The body of the `try` block of `upload_image`; `none` models an
exception escaping the block.  On the non-raising path the blob is
written with `overwrite=overwrite` and the blob URL returned; when the
blob exists and `overwrite` is false the URL is returned without a
write. -/
def upload_image_try (env : AzEnv) (st : BlobStore) (pub : String) (d : Date)
    (page : Nat) (bytes : Nat) (ext : String) (overwrite : Bool) :
    Option (Option String × BlobStore) :=
  let blob_name := upload_blob_name pub d page ext
  if env.existsRaises then none
  else
    let blobExists := hasKey st blob_name
    if blobExists && !overwrite then some (some (blobUrl blob_name), st)
    else if env.uploadRaises then none
    else some (some (blobUrl blob_name), setKey st blob_name bytes)

/-- `upload_image`: the `try` body with the `except Exception` handler
that logs and returns `None`, leaving the store as it was. -/
def upload_image (env : AzEnv) (st : BlobStore) (pub : String) (d : Date)
    (page : Nat) (bytes : Nat) (ext : String) (overwrite : Bool) :
    Option String × BlobStore :=
  match upload_image_try env st pub d page bytes ext overwrite with
  | some r => r
  | none => (none, st)

/-- `blob_exists`: builds the same key and queries the store; an SDK
exception is caught and reported as `false`. -/
def blob_exists (env : AzEnv) (st : BlobStore) (pub : String) (d : Date)
    (page : Nat) (ext : String) : Bool :=
  if env.existsRaises then false
  else hasKey st (exists_blob_name pub d page ext)

/-- am730_scraper.py `upload_to_azure`: wraps `upload_image` (called
with the default `overwrite=True`) and reports a boolean. -/
def upload_to_azure (env : AzEnv) (st : BlobStore) (pub : String) (d : Date)
    (page : Nat) (bytes : Nat) (ext : String) : Bool × BlobStore :=
  match upload_image env st pub d page bytes ext true with
  | (some _, st2) => (true, st2)
  | (none, st2) => (false, st2)

/-! ### Scraper effect model

Shared state threaded through the per-date loops: the set of pages
whose blob exists for the fixed (publisher, date, extension) of the
loop, the temporary files currently on disk, the trace of externally
visible operations, and the per-date processed-page counter. -/

/-- Outcome of one HTTP request: a status code, a network error raised
before any body bytes were written, or a network error raised while
streaming the body after a 200 status (the partially written local
file stays on disk). -/
inductive Resp
  | status (code : Nat)
  | netErr
  | midStream
deriving DecidableEq, Repr

inductive TempFile
  | amPdf (p : Nat)
  | amJpg (p : Nat)
  | tkPdf (i : Nat)
  | tkJpg (i : Nat) (pageIdx : Nat)
deriving DecidableEq, Repr

inductive Ev
  | preFetch (i : Nat)
  | download (i : Nat)
  | convert (p : Nat)
  | upload (p : Nat)
  | amFetch (p : Nat)
  | amConvert (p : Nat)
  | amUpload (p : Nat)
deriving DecidableEq, Repr

structure St where
  store : List Nat
  temps : List TempFile
  events : List Ev
  count : Nat
deriving DecidableEq, Repr

/-- Membership test used for the modelled `blob_exists` calls inside
the loops (the store records which page numbers have blobs for the
loop's fixed publisher/date/extension). -/
def memN (l : List Nat) (p : Nat) : Bool := l.any (fun q => q == p)

/-! ### am730_scraper.py -/

/-- Per-page environment of one am730 date: the HTTP outcome for each
page URL, whether the PDF-to-JPG conversion succeeds, and whether the
Azure upload succeeds (abstracting the boolean result of
`upload_to_azure`). -/
structure Am730Env where
  resp : Nat → Resp
  convOk : Nat → Bool
  upOk : Nat → Bool

/-- The page loop of `download_and_convert_pdf`: for each page, skip if
the blob exists; otherwise fetch the page PDF; on 429 stop; on 200
write the temp PDF, convert to a temp JPG, upload, and remove both
temp files in the `finally` block; on 403/404, any other status, or a
network error stop; a mid-stream network error leaves the partial
temp PDF behind and stops. -/
def am730PdfLoop (env : Am730Env) : List Nat → St → St
  | [], s => s
  | p :: rest, s =>
    if memN s.store p then
      am730PdfLoop env rest { s with count := s.count + 1 }
    else
      let s1 : St := { s with events := s.events ++ [Ev.amFetch p] }
      let r := env.resp p
      if r = Resp.status 429 then s1
      else if r = Resp.status 200 then
        let s2 : St := { s1 with temps := s1.temps ++ [TempFile.amPdf p] }
        let s3 : St :=
          if env.convOk p then
            let sc : St := { s2 with events := s2.events ++ [Ev.amConvert p],
                                     temps := s2.temps ++ [TempFile.amJpg p] }
            let su : St := { sc with events := sc.events ++ [Ev.amUpload p] }
            if env.upOk p then
              { su with store := su.store ++ [p], count := su.count + 1 }
            else su
          else { s2 with events := s2.events ++ [Ev.amConvert p] }
        let s4 : St := { s3 with
          temps := s3.temps.filter
            (fun t => t != TempFile.amPdf p && t != TempFile.amJpg p) }
        am730PdfLoop env rest s4
      else if r = Resp.midStream then
        { s1 with temps := s1.temps ++ [TempFile.amPdf p] }
      else s1

/-- The page loop of `download_jpg_pages`: as above but the page image
is downloaded directly (no conversion step) and the temp JPG is
removed by an unconditional `os.remove` after the upload attempt. -/
def am730JpgLoop (env : Am730Env) : List Nat → St → St
  | [], s => s
  | p :: rest, s =>
    if memN s.store p then
      am730JpgLoop env rest { s with count := s.count + 1 }
    else
      let s1 : St := { s with events := s.events ++ [Ev.amFetch p] }
      let r := env.resp p
      if r = Resp.status 429 then s1
      else if r = Resp.status 200 then
        let s2 : St := { s1 with temps := s1.temps ++ [TempFile.amJpg p] }
        let s3 : St := { s2 with events := s2.events ++ [Ev.amUpload p] }
        let s4 : St :=
          if env.upOk p then
            { s3 with store := s3.store ++ [p], count := s3.count + 1 }
          else s3
        let s5 : St := { s4 with
          temps := s4.temps.filter (fun t => t != TempFile.amJpg p) }
        am730JpgLoop env rest s5
      else if r = Resp.midStream then
        { s1 with temps := s1.temps ++ [TempFile.amJpg p] }
      else s1

/-- `range(1, 201)`: the hard-coded page numbers 1..200. -/
def pagesRange : List Nat := List.range' 1 200

def initSt (store0 : List Nat) : St :=
  { store := store0, temps := [], events := [], count := 0 }

/-- `download_and_convert_pdf(date, azure_client)` for one date, given
the per-page environment and the initial blob store. -/
def download_and_convert_pdf (env : Am730Env) (store0 : List Nat) : St :=
  am730PdfLoop env pagesRange (initSt store0)

/-- `download_jpg_pages(date, date_format, azure_client)` for one date. -/
def download_jpg_pages (env : Am730Env) (store0 : List Nat) : St :=
  am730JpgLoop env pagesRange (initSt store0)

/-! ### TaKungPao_scraper.py -/

/-- Environment describing one discovered PDF artifact of a TaKungPao
date: the result of the page-count pre-check
(`get_pdf_page_count_from_url`, `none` when it failed), the HTTP
outcome of the full download (`download_pdf`), the page count obtained
by opening the downloaded file with fitz (`none` when `fitz.open`
fails; the same file is opened both inside `convert_pdf_and_upload`
and in `scrape_date`), and the per-page-index conversion and upload
outcomes. -/
structure PdfEnv where
  preCount : Option Nat
  dlResp : Resp
  openPages : Option Nat
  convOk : Nat → Bool
  upOk : Nat → Bool

/-- The number of pages the artifact is expected to contribute to the
output sequence: the pre-checked count, or 1 when the pre-check
failed. -/
def expectedPages (e : PdfEnv) : Nat := e.preCount.getD 1

/-- The pre-download skip test in `scrape_date`: true when the
pre-check succeeded and every expected output page already has a blob;
false whenever the pre-check failed. -/
def allExpectedExist (e : PdfEnv) (store : List Nat) (start : Nat) : Bool :=
  match e.preCount with
  | some n => (List.range n).all (fun j => memN store (start + j))
  | none => false

/-- One iteration of the page loop of `convert_pdf_and_upload` for page
index `i` (output page `start + i`): skip (counting the page as
processed) if the blob exists; otherwise convert the page to a temp
JPG, upload it, and remove the temp JPG in the `finally` block; a
conversion failure is logged and the loop continues. -/
def convLoop (e : PdfEnv) (pdfIdx start : Nat) : List Nat → St → Nat → St × Nat
  | [], s, c => (s, c)
  | i :: rest, s, c =>
    let p := start + i
    if memN s.store p then convLoop e pdfIdx start rest s (c + 1)
    else
      if e.convOk i then
        let sc : St := { s with events := s.events ++ [Ev.convert p],
                                temps := s.temps ++ [TempFile.tkJpg pdfIdx i] }
        let su : St := { sc with events := sc.events ++ [Ev.upload p] }
        let s2 : St :=
          if e.upOk i then { su with store := su.store ++ [p] } else su
        let c2 : Nat := if e.upOk i then c + 1 else c
        let s3 : St := { s2 with
          temps := s2.temps.filter (fun t => t != TempFile.tkJpg pdfIdx i) }
        convLoop e pdfIdx start rest s3 c2
      else
        let s2 : St := { s with events := s.events ++ [Ev.convert p] }
        let s3 : St := { s2 with
          temps := s2.temps.filter (fun t => t != TempFile.tkJpg pdfIdx i) }
        convLoop e pdfIdx start rest s3 c

/-- `convert_pdf_and_upload`: opens the downloaded PDF; if `fitz.open`
fails the whole-PDF `except` path logs every expected page as missing
and returns 0; otherwise the page loop runs over the document's page
count and the number of processed (uploaded or already existing) pages
is returned. -/
def convert_pdf_and_upload (e : PdfEnv) (pdfIdx start : Nat) (s : St) : St × Nat :=
  match e.openPages with
  | none => (s, 0)
  | some n => convLoop e pdfIdx start (List.range n) s 0

/-- One iteration of the artifact loop of `scrape_date` for artifact
index `i` starting at output page `start`.  Returns the new state, the
amount by which `current_output_page_num` advances, and the updated
`date_has_some_failures` flag.

Control flow from the source: first the ranged pre-check request; if
all expected pages already exist the artifact is skipped and the
counter advances by the expected count; otherwise the PDF is
downloaded.  On a 200 the PDF is converted/uploaded, the counter
advances by the actual page count of the downloaded file (falling back
to the expected count when the file cannot be opened), and the temp
PDF is removed in the `finally` block.  On a download failure the
expected pages are logged missing and the counter still advances by
the expected count; a mid-stream failure additionally leaves the
partial temp PDF on disk. -/
def processArtifact (e : PdfEnv) (i start : Nat) (s : St) (fail : Bool) :
    St × Nat × Bool :=
  let s0 : St := { s with events := s.events ++ [Ev.preFetch i] }
  if allExpectedExist e s0.store start then
    (s0, expectedPages e, fail)
  else
    let s1 : St := { s0 with events := s0.events ++ [Ev.download i] }
    if e.dlResp = Resp.status 200 then
      let s2 : St := { s1 with temps := s1.temps ++ [TempFile.tkPdf i] }
      let r := convert_pdf_and_upload e i start s2
      let produced := r.2
      let actual := e.openPages.getD (expectedPages e)
      let fail2 := if e.openPages.isNone then true else fail
      let s4 : St := { r.1 with
        temps := r.1.temps.filter (fun t => t != TempFile.tkPdf i) }
      let fail3 := if produced < actual then true else fail2
      (s4, actual, fail3)
    else if e.dlResp = Resp.midStream then
      let s2 : St := { s1 with temps := s1.temps ++ [TempFile.tkPdf i] }
      (s2, expectedPages e, true)
    else
      (s1, expectedPages e, true)

/-- The artifact loop of `scrape_date`, additionally recording the
(start page, advance) slot assigned to each artifact. -/
def scrapeLoop : List PdfEnv → Nat → Nat → St → Bool → St × Bool × List (Nat × Nat)
  | [], _, _, s, fail => (s, fail, [])
  | e :: rest, i, start, s, fail =>
    let r := processArtifact e i start s fail
    let rec' := scrapeLoop rest (i + 1) (start + r.2.1) r.1 r.2.2
    (rec'.1, rec'.2.1, (start, r.2.1) :: rec'.2.2)

/-- `scrape_date`: processes the discovered artifacts in order with the
output page counter starting at 1.  Returns the final state, the
`date_has_some_failures` flag, and the slot list.  (The boolean the
Python function returns is the negation of the flag.) -/
def scrape_date (es : List PdfEnv) (store0 : List Nat) : St × Bool × List (Nat × Nat) :=
  scrapeLoop es 0 1 (initSt store0) false

/-- Contiguity of a slot list: the first slot starts at `start` and
each subsequent slot starts where the previous one ended. -/
def slotsChainB : Nat → List (Nat × Nat) → Bool
  | _, [] => true
  | start, (st, adv) :: rest => (st == start) && slotsChainB (st + adv) rest

/-! ### Concrete scenario environments -/

/-- A single-page artifact that pre-checks, downloads, converts and
uploads successfully. -/
def artOk : PdfEnv :=
  { preCount := some 1, dlResp := Resp.status 200, openPages := some 1,
    convOk := fun _ => true, upOk := fun _ => true }

/-- A single-page artifact whose download fails with a network error. -/
def artFailDl : PdfEnv :=
  { preCount := some 1, dlResp := Resp.netErr, openPages := none,
    convOk := fun _ => false, upOk := fun _ => false }

/-- The three artifacts of the claimed numbering scenario: each is
expected to contribute one page and the second fails. -/
def envSlots111 : List PdfEnv := [artOk, artFailDl, artOk]

/-- An artifact whose page-count pre-check fails (returns None) while
the download itself would succeed. -/
def artNoPre : PdfEnv :=
  { preCount := none, dlResp := Resp.status 200, openPages := some 1,
    convOk := fun _ => true, upOk := fun _ => true }

/-- An artifact whose download request is answered with HTTP 429. -/
def art429 : PdfEnv :=
  { preCount := none, dlResp := Resp.status 429, openPages := none,
    convOk := fun _ => false, upOk := fun _ => false }

/-- am730 environment in which every page request is answered 429. -/
def envAm429 : Am730Env :=
  { resp := fun _ => Resp.status 429, convOk := fun _ => true,
    upOk := fun _ => true }

/-- am730 environment in which every page request dies mid-stream. -/
def envMidStream : Am730Env :=
  { resp := fun _ => Resp.midStream, convOk := fun _ => true,
    upOk := fun _ => true }

/-- am730 happy-path environment: pages 1-5 return 200 and convert and
upload fine, page 6 returns 404. -/
def envPages5 : Am730Env :=
  { resp := fun p => if p ≤ 5 then Resp.status 200 else Resp.status 404,
    convOk := fun _ => true, upOk := fun _ => true }

/-- Expected event trace of a happy am730 PDF-variant run over the
first `k` pages. -/
def happyPdfEvts : Nat → List Ev
  | 0 => []
  | k + 1 => happyPdfEvts k ++
      [Ev.amFetch (k + 1), Ev.amConvert (k + 1), Ev.amUpload (k + 1)]

/-- Expected event trace of a happy am730 JPG-variant run over the
first `k` pages. -/
def happyJpgEvts : Nat → List Ev
  | 0 => []
  | k + 1 => happyJpgEvts k ++ [Ev.amFetch (k + 1), Ev.amUpload (k + 1)]

def isAmFetch : Ev → Bool
  | Ev.amFetch _ => true
  | _ => false

/-! ## Lemmas about decimal formatting and parsing -/

theorem digitChar_isDigit (k : Nat) (hk : k < 10) : (digitChar k).isDigit = true := by
  interval_cases k <;> decide

theorem digitChar_toNat (k : Nat) (hk : k < 10) : (digitChar k).toNat = 48 + k := by
  interval_cases k <;> decide

theorem digitChar_ne_dash (k : Nat) (hk : k < 10) : digitChar k ≠ '-' := by
  interval_cases k <;> decide

theorem natDigitsAux_ne_nil (fuel n : Nat) (h : n < fuel) :
    natDigitsAux fuel n ≠ [] := by
  cases fuel with
  | zero => omega
  | succ f =>
    by_cases h10 : n < 10 <;> simp [natDigitsAux, h10]

theorem mem_natDigitsAux (fuel : Nat) :
    ∀ n c, n < fuel → c ∈ natDigitsAux fuel n → ∃ k, k < 10 ∧ c = digitChar k := by
  induction fuel with
  | zero => intro n c h; omega
  | succ f ih =>
    intro n c h hc
    by_cases h10 : n < 10
    · simp [natDigitsAux, h10] at hc
      exact ⟨n, h10, hc⟩
    · simp only [natDigitsAux, if_neg h10, List.mem_append, List.mem_singleton] at hc
      rcases hc with hc | hc
      · exact ih (n / 10) c (by omega) hc
      · exact ⟨n % 10, Nat.mod_lt _ (by omega), hc⟩

theorem parseNatAcc_append (xs : List Char) :
    ∀ ys acc, parseNatAcc acc (xs ++ ys) =
      (parseNatAcc acc xs).bind (fun a => parseNatAcc a ys) := by
  induction xs with
  | nil => intro ys acc; rfl
  | cons c cs ih =>
    intro ys acc
    by_cases hd : c.isDigit
    · simp [parseNatAcc, hd, ih]
    · simp [parseNatAcc, hd]

theorem parseNatAcc_natDigitsAux (fuel : Nat) :
    ∀ n acc, n < fuel →
      parseNatAcc acc (natDigitsAux fuel n) =
        some (acc * 10 ^ (natDigitsAux fuel n).length + n) := by
  induction fuel with
  | zero => intro n acc h; omega
  | succ f ih =>
    intro n acc h
    by_cases h10 : n < 10
    · simp [natDigitsAux, h10, parseNatAcc, digitChar_isDigit n h10,
        digitChar_toNat n h10]
    · have hdiv : n / 10 < f := by
        have := Nat.div_lt_self (by omega : 0 < n) (by omega : 1 < 10)
        omega
      have hmod : n % 10 < 10 := Nat.mod_lt _ (by omega)
      simp only [natDigitsAux, if_neg h10]
      rw [parseNatAcc_append, ih (n / 10) acc hdiv]
      simp only [Option.some_bind', parseNatAcc, digitChar_isDigit _ hmod,
        if_pos, digitChar_toNat _ hmod]
      have hlen : (natDigitsAux f (n / 10) ++ [digitChar (n % 10)]).length =
          (natDigitsAux f (n / 10)).length + 1 := by simp
      rw [hlen, pow_succ]
      congr 1
      have h48 : 48 + n % 10 - 48 = n % 10 := by omega
      rw [h48]
      calc (acc * 10 ^ (natDigitsAux f (n / 10)).length + n / 10) * 10 + n % 10
          = acc * (10 ^ (natDigitsAux f (n / 10)).length * 10) +
              (n / 10 * 10 + n % 10) := by ring
        _ = acc * (10 ^ (natDigitsAux f (n / 10)).length * 10) + n := by
            rw [Nat.div_add_mod']

theorem parseNatAcc_natDigits (n : Nat) :
    parseNatAcc 0 (natDigits n) = some n := by
  have h := parseNatAcc_natDigitsAux (n + 1) n 0 (Nat.lt_succ_self n)
  simpa using h

theorem parseNatAcc_replicate_zero (j : Nat) :
    ∀ xs, parseNatAcc 0 (List.replicate j '0' ++ xs) = parseNatAcc 0 xs := by
  induction j with
  | zero => intro xs; rfl
  | succ k ih =>
    intro xs
    simp only [List.replicate_succ, List.cons_append, parseNatAcc]
    norm_num
    exact ih xs

theorem parseNatChars_eq_acc (cs : List Char) (hne : cs ≠ []) :
    parseNatChars cs = parseNatAcc 0 cs := by
  cases cs with
  | nil => exact absurd rfl hne
  | cons c cs => rfl

theorem natDigits_ne_nil (n : Nat) : natDigits n ≠ [] :=
  natDigitsAux_ne_nil (n + 1) n (Nat.lt_succ_self n)

theorem padTo_ne_nil (w : Nat) (s : List Char) (h : s ≠ []) : padTo w s ≠ [] := by
  simp only [padTo]
  intro hcontra
  rcases List.append_eq_nil.mp hcontra with ⟨_, h2⟩
  exact h h2

theorem parseNat_padTo (w n : Nat) :
    parseNatChars (padTo w (natDigits n)) = some n := by
  rw [parseNatChars_eq_acc (padTo w (natDigits n)) (padTo_ne_nil _ _ (natDigits_ne_nil n))]
  unfold padTo
  rw [parseNatAcc_replicate_zero]
  exact parseNatAcc_natDigits n

theorem parseNat_natDigits (n : Nat) :
    parseNatChars (natDigits n) = some n := by
  rw [parseNatChars_eq_acc (natDigits n) (natDigits_ne_nil n)]
  exact parseNatAcc_natDigits n

theorem parseNat_pad2 (n : Nat) : parseNatChars (pad2 n) = some n :=
  parseNat_padTo 2 n

theorem natDigitsAux_length_le (fuel : Nat) :
    ∀ n k, n < fuel → n < 10 ^ k → 1 ≤ k → (natDigitsAux fuel n).length ≤ k := by
  induction fuel with
  | zero => intro n k h; omega
  | succ f ih =>
    intro n k h hk h1
    by_cases h10 : n < 10
    · simp [natDigitsAux, h10]; omega
    · have hk2 : 2 ≤ k := by
        by_contra hcon
        have : k = 1 := by omega
        subst this
        simp at hk
        omega
      have hdiv : n / 10 < f := by
        have := Nat.div_lt_self (by omega : 0 < n) (by omega : 1 < 10)
        omega
      have hdivk : n / 10 < 10 ^ (k - 1) := by
        have h10pos : 0 < (10 : Nat) := by norm_num
        rw [Nat.div_lt_iff_lt_mul h10pos]
        calc n < 10 ^ k := hk
        _ = 10 ^ (k - 1) * 10 := by
            rw [← pow_succ]
            congr 1
            omega
      have := ih (n / 10) (k - 1) hdiv hdivk (by omega)
      simp only [natDigitsAux, if_neg h10, List.length_append, List.length_singleton]
      omega

theorem natDigitsAux_length_ge (fuel : Nat) :
    ∀ n k, n < fuel → 10 ^ k ≤ n → k + 1 ≤ (natDigitsAux fuel n).length := by
  induction fuel with
  | zero => intro n k h; omega
  | succ f ih =>
    intro n k h hk
    by_cases h10 : n < 10
    · have hk0 : k = 0 := by
        by_contra hcon
        have h1 : 1 ≤ k := by omega
        have : (10 : Nat) ^ 1 ≤ 10 ^ k := Nat.pow_le_pow_right (by norm_num) h1
        simp at this
        omega
      subst hk0
      simp [natDigitsAux, h10]
    · cases k with
      | zero =>
        have := natDigitsAux_ne_nil (f + 1) n h
        have hlen := List.length_pos.mpr this
        omega
      | succ j =>
        have hdiv : n / 10 < f := by
          have := Nat.div_lt_self (by omega : 0 < n) (by omega : 1 < 10)
          omega
        have hdivk : 10 ^ j ≤ n / 10 := by
          have h10pos : 0 < (10 : Nat) := by norm_num
          rw [Nat.le_div_iff_mul_le h10pos]
          calc 10 ^ j * 10 = 10 ^ (j + 1) := (pow_succ 10 j).symm
          _ ≤ n := hk
        have := ih (n / 10) j hdiv hdivk
        simp only [natDigitsAux, if_neg h10, List.length_append, List.length_singleton]
        omega

theorem natDigits_length_four (y : Nat) (h1 : 1000 ≤ y) (h2 : y ≤ 9999) :
    (natDigits y).length = 4 := by
  have hle := natDigitsAux_length_le (y + 1) y 4 (Nat.lt_succ_self y)
    (by norm_num; omega) (by norm_num)
  have hge := natDigitsAux_length_ge (y + 1) y 3 (Nat.lt_succ_self y)
    (by norm_num; omega)
  unfold natDigits
  omega

theorem natDigits_length_le_two (n : Nat) (h : n ≤ 99) :
    (natDigits n).length ≤ 2 := by
  exact natDigitsAux_length_le (n + 1) n 2 (Nat.lt_succ_self n) (by norm_num; omega)
    (by norm_num)

theorem pad2_length (n : Nat) (h : n ≤ 99) : (pad2 n).length = 2 := by
  have := natDigits_length_le_two n h
  have hne := natDigitsAux_ne_nil (n + 1) n (Nat.lt_succ_self n)
  have hpos : 1 ≤ (natDigits n).length := List.length_pos.mpr hne
  simp only [pad2, padTo, List.length_append, List.length_replicate]
  omega

theorem dash_not_mem_natDigits (n : Nat) : '-' ∉ natDigits n := by
  intro hmem
  obtain ⟨k, hk, hc⟩ := mem_natDigitsAux (n + 1) n '-' (Nat.lt_succ_self n) hmem
  exact digitChar_ne_dash k hk hc.symm

theorem dash_not_mem_pad2 (n : Nat) : '-' ∉ pad2 n := by
  intro hmem
  simp only [pad2, padTo, List.mem_append, List.mem_replicate] at hmem
  rcases hmem with ⟨_, h⟩ | h
  · exact absurd h (by decide)
  · exact dash_not_mem_natDigits n h

theorem splitDash_no_dash (xs : List Char) (h : '-' ∉ xs) : splitDash xs = [xs] := by
  induction xs with
  | nil => rfl
  | cons c cs ih =>
    have hc : c ≠ '-' := fun hcon => h (by simp [hcon])
    have hcs : '-' ∉ cs := fun hcon => h (by simp [hcon])
    simp only [splitDash, if_neg hc, ih hcs]

theorem splitDash_append (xs ys : List Char) (h : '-' ∉ xs) :
    splitDash (xs ++ '-' :: ys) = xs :: splitDash ys := by
  induction xs with
  | nil => simp [splitDash]
  | cons c cs ih =>
    have hc : c ≠ '-' := fun hcon => h (by simp [hcon])
    have hcs : '-' ∉ cs := fun hcon => h (by simp [hcon])
    simp only [List.cons_append, splitDash, List.append_eq, if_neg hc, ih hcs]

theorem splitDash_format (d : Date) :
    splitDash (formatDateISO d) =
      [natDigits d.year, pad2 d.month, pad2 d.day] := by
  unfold formatDateISO
  rw [List.append_assoc, List.cons_append]
  rw [splitDash_append _ _ (dash_not_mem_natDigits d.year)]
  rw [splitDash_append _ _ (dash_not_mem_pad2 d.month)]
  rw [splitDash_no_dash _ (dash_not_mem_pad2 d.day)]

theorem parseDate_format (d : Date) (hv : d.valid = true)
    (h1 : 1000 ≤ d.year) (h2 : d.year ≤ 9999) :
    parseDateChars (formatDateISO d) = some d := by
  have hvm : 1 ≤ d.month ∧ d.month ≤ 12 ∧ 1 ≤ d.day ∧
      d.day ≤ daysInMonth d.year d.month := by
    simp only [Date.valid, Bool.and_eq_true, decide_eq_true_eq] at hv
    exact ⟨hv.1.1.1, hv.1.1.2, hv.1.2, hv.2⟩
  have hm99 : d.month ≤ 99 := by omega
  have hd99 : d.day ≤ 99 := by
    have h31 : daysInMonth d.year d.month ≤ 31 := by
      unfold daysInMonth
      split_ifs <;> omega
    omega
  have hcond : 1 ≤ d.year ∧ 1 ≤ d.month ∧ d.month ≤ 12 ∧ 1 ≤ d.day ∧
      d.day ≤ daysInMonth d.year d.month :=
    ⟨by omega, hvm.1, hvm.2.1, hvm.2.2.1, hvm.2.2.2⟩
  unfold parseDateChars
  rw [splitDash_format d]
  simp [parseDateFields, natDigits_length_four d.year h1 h2,
    pad2_length d.month hm99, pad2_length d.day hd99,
    parseNat_natDigits, parseNat_pad2, hcond]

/-- Round-trip of the checkpoint file: loading right after saving
yields the saved date plus one day (shared helper). -/
theorem load_save_eq (d : Date) (hv : d.valid = true) (h1 : 1000 ≤ d.year)
    (h2 : d.year ≤ 9999) (hne : d ≠ ⟨9999, 12, 31⟩) :
    load_checkpoint (some (save_checkpoint d)) = some (nextDay d) := by
  dsimp only [load_checkpoint, save_checkpoint]
  rw [parseDate_format d hv h1 h2]
  simp [hne]

/-- Claim C3: for every date d that `datetime` can represent (valid
Gregorian date with a four-digit year, and not the maximal date
9999-12-31 on which the day increment would overflow),
`load_checkpoint` after `save_checkpoint d` returns d plus one day,
round-tripping through the single-line YYYY-MM-DD checkpoint file. -/
theorem checkpoint_roundtrip (d : Date) (hv : d.valid = true)
    (h1 : 1000 ≤ d.year) (h2 : d.year ≤ 9999) (hne : d ≠ ⟨9999, 12, 31⟩) :
    load_checkpoint (some (save_checkpoint d)) = some (nextDay d) :=
  load_save_eq d hv h1 h2 hne

/-- Witness for C3: the spec instance, save 2018-06-10 then load
yields 2018-06-11. -/
theorem checkpoint_roundtrip_witness :
    load_checkpoint (some (save_checkpoint ⟨2018, 6, 10⟩)) =
      some ⟨2018, 6, 11⟩ := by
  have h := checkpoint_roundtrip ⟨2018, 6, 10⟩ (by decide) (by decide)
    (by decide) (by decide)
  rw [h]
  decide

/-- Counterexample to claim C6 as stated: with the persisted
checkpoint date 2018-06-09, the run does not begin at 2018-06-10 (the
day after); `main` detects that `load_checkpoint` returned the
problematic date 2018-06-10 and overrides the start to `START_DATE`
(2018-10-17), skipping far beyond checkpoint plus one day. -/
theorem resume_skips_for_problem_checkpoint :
    computeStartDate (load_checkpoint (some (save_checkpoint ⟨2018, 6, 9⟩))) =
        START_DATE ∧
      START_DATE ≠ nextDay ⟨2018, 6, 9⟩ := by
  constructor
  · decide
  · decide

/-- Claim C6 (amended): for every persisted checkpoint date c whose
successor is not the hard-coded problematic date 2018-06-10, a run
that finds that checkpoint begins its date iteration exactly at c plus
one day; when c + 1 day equals 2018-06-10 the run instead begins at
`START_DATE` (2018-10-17). -/
theorem resume_starts_day_after_checkpoint (c : Date) (hv : c.valid = true)
    (h1 : 1000 ≤ c.year) (h2 : c.year ≤ 9999) (hne : c ≠ ⟨9999, 12, 31⟩)
    (hnp : nextDay c ≠ PROBLEM_CHECKPOINT_DATE) :
    computeStartDate (load_checkpoint (some (save_checkpoint c))) = nextDay c := by
  unfold computeStartDate
  rw [load_save_eq c hv h1 h2 hne]
  simp [hnp]

/-- Witness for the amended C6 at the concrete checkpoint 2019-01-05:
the run resumes at 2019-01-06. -/
theorem resume_starts_day_after_checkpoint_witness :
    computeStartDate (load_checkpoint (some (save_checkpoint ⟨2019, 1, 5⟩))) =
      ⟨2019, 1, 6⟩ := by
  have h := resume_starts_day_after_checkpoint ⟨2019, 1, 5⟩ (by decide)
    (by decide) (by decide) (by decide) (by decide)
  rw [h]
  decide

/-! ## Claims about the blob storage wrapper -/

theorem getKey_setKey (st : BlobStore) (k : String) (v : Nat) :
    getKey (setKey st k v) k = some v := by
  unfold getKey setKey
  rw [List.find?_cons_of_pos _ (by simp)]
  rfl

/-- Claim C7: for every (publisher, date, page, extension) input the
upload path composes the deterministic storage key
publisher/YYYY/MM/DD/page.ext with the page number zero-padded to
three digits; `blob_exists`, `download_image` and `delete_image`
compose the identical key; and the upload stores the bytes at that key
unconditionally overwriting any prior value (the store afterwards maps
the key to the new bytes whatever it held before). -/
theorem blob_key_composition (pub : String) (d : Date) (page : Nat)
    (ext : String) (h1 : 1000 ≤ d.year) (h2 : d.year ≤ 9999) :
    upload_blob_name pub d page ext = exists_blob_name pub d page ext ∧
    upload_blob_name pub d page ext = download_blob_name pub d page ext ∧
    upload_blob_name pub d page ext = delete_blob_name pub d page ext ∧
    upload_blob_name pub d page ext =
      pub ++ "/" ++ strOf (pad4 d.year) ++ "/" ++ strOf (pad2 d.month) ++ "/" ++
        strOf (pad2 d.day) ++ "/" ++ strOf (pad3 page) ++ "." ++ ext ∧
    (∀ env st bytes, env.existsRaises = false → env.uploadRaises = false →
      (upload_image env st pub d page bytes ext true).2 =
          setKey st (upload_blob_name pub d page ext) bytes ∧
        getKey (upload_image env st pub d page bytes ext true).2
          (upload_blob_name pub d page ext) = some bytes) := by
  refine ⟨rfl, rfl, rfl, ?_, ?_⟩
  · have h4 : pad4 d.year = natDigits d.year := by
      simp [pad4, padTo, natDigits_length_four d.year h1 h2]
    rw [h4]
    rfl
  · intro env st bytes hex hup
    have hstep : (upload_image env st pub d page bytes ext true).2 =
        setKey st (upload_blob_name pub d page ext) bytes := by
      unfold upload_image upload_image_try
      rw [hex, hup]
      simp
    exact ⟨hstep, by rw [hstep]; exact getKey_setKey _ _ _⟩

/-- Witness for C7 at (TaKungPao, 2018-06-10, page 1, jpg): the
composed key is TaKungPao/2018/06/10/001.jpg and the sibling key
constructions agree on it. -/
theorem blob_key_composition_witness :
    upload_blob_name "TaKungPao" ⟨2018, 6, 10⟩ 1 "jpg" =
        "TaKungPao/2018/06/10/001.jpg" ∧
      upload_blob_name "TaKungPao" ⟨2018, 6, 10⟩ 1 "jpg" =
        exists_blob_name "TaKungPao" ⟨2018, 6, 10⟩ 1 "jpg" := by
  exact ⟨by decide,
    (blob_key_composition "TaKungPao" ⟨2018, 6, 10⟩ 1 "jpg"
      (by decide) (by decide)).1⟩

/-- Claim C8: `upload_image` reports failure through its result rather
than raising: every exception inside its try block yields the result
None with the store untouched; when the SDK calls succeed the blob URL
is returned; `upload_to_azure` turns that result into a boolean; and
in the am730 page loop an upload failure leaves the loop running on
the remaining pages with the failed page neither counted nor stored,
so a storage-write failure never aborts the rest of the date. -/
theorem upload_failure_is_result (env : AzEnv) (st : BlobStore) (pub : String)
    (d : Date) (page : Nat) (bytes : Nat) (ext : String) (ow : Bool) :
    (upload_image_try env st pub d page bytes ext ow = none →
      upload_image env st pub d page bytes ext ow = (none, st)) ∧
    (env.existsRaises = false → env.uploadRaises = false →
      (upload_image env st pub d page bytes ext ow).1 =
        some (blobUrl (upload_blob_name pub d page ext))) ∧
    (upload_to_azure env st pub d page bytes ext =
      ((upload_image env st pub d page bytes ext true).1.isSome,
        (upload_image env st pub d page bytes ext true).2)) ∧
    (∀ amEnv p rest s, memN s.store p = false →
      amEnv.resp p = Resp.status 200 → amEnv.convOk p = true →
      amEnv.upOk p = false →
      ∃ s2, am730PdfLoop amEnv (p :: rest) s = am730PdfLoop amEnv rest s2 ∧
        s2.store = s.store ∧ s2.count = s.count) := by
  refine ⟨?_, ?_, ?_, ?_⟩
  · intro h
    unfold upload_image
    rw [h]
  · intro hex hup
    unfold upload_image upload_image_try
    rw [hex, hup]
    by_cases hb : hasKey st (upload_blob_name pub d page ext) && !ow <;> simp [hb]
  · unfold upload_to_azure
    rcases hcase : upload_image env st pub d page bytes ext true with ⟨r, st2⟩
    cases r <;> simp
  · intro amEnv p rest s hmem hresp hconv hup
    refine ⟨{ s with
      events := s.events ++ [Ev.amFetch p, Ev.amConvert p, Ev.amUpload p],
      temps := (s.temps ++ [TempFile.amPdf p, TempFile.amJpg p]).filter
        (fun t => t != TempFile.amPdf p && t != TempFile.amJpg p) },
      ?_, rfl, rfl⟩
    conv_lhs => rw [am730PdfLoop]
    rw [hmem, hresp]
    simp [hconv, hup, List.filter_append, List.append_assoc]

/-- Witness for C8: with an SDK that raises on the existence check,
`upload_image` returns None and leaves the (empty) store unchanged. -/
theorem upload_failure_is_result_witness :
    upload_image ⟨true, false⟩ [] "am730" ⟨2018, 6, 11⟩ 1 7 "jpeg" true =
      (none, []) := by
  exact (upload_failure_is_result ⟨true, false⟩ [] "am730" ⟨2018, 6, 11⟩
    1 7 "jpeg" true).1 rfl

/-! ## Step lemmas for the am730 page loops -/

theorem am730PdfLoop_skip (env : Am730Env) (p : Nat) (rest : List Nat) (s : St)
    (h : memN s.store p = true) :
    am730PdfLoop env (p :: rest) s =
      am730PdfLoop env rest { s with count := s.count + 1 } := by
  conv_lhs => rw [am730PdfLoop]
  rw [h]
  simp

theorem am730JpgLoop_skip (env : Am730Env) (p : Nat) (rest : List Nat) (s : St)
    (h : memN s.store p = true) :
    am730JpgLoop env (p :: rest) s =
      am730JpgLoop env rest { s with count := s.count + 1 } := by
  conv_lhs => rw [am730JpgLoop]
  rw [h]
  simp

theorem am730PdfLoop_429 (env : Am730Env) (p : Nat) (rest : List Nat) (s : St)
    (h : memN s.store p = false) (hr : env.resp p = Resp.status 429) :
    am730PdfLoop env (p :: rest) s =
      { s with events := s.events ++ [Ev.amFetch p] } := by
  conv_lhs => rw [am730PdfLoop]
  rw [h, hr]
  simp

theorem am730JpgLoop_429 (env : Am730Env) (p : Nat) (rest : List Nat) (s : St)
    (h : memN s.store p = false) (hr : env.resp p = Resp.status 429) :
    am730JpgLoop env (p :: rest) s =
      { s with events := s.events ++ [Ev.amFetch p] } := by
  conv_lhs => rw [am730JpgLoop]
  rw [h, hr]
  simp

theorem am730PdfLoop_break_status (env : Am730Env) (p : Nat) (rest : List Nat)
    (s : St) (c : Nat) (h : memN s.store p = false)
    (hr : env.resp p = Resp.status c) (h429 : c ≠ 429) (h200 : c ≠ 200) :
    am730PdfLoop env (p :: rest) s =
      { s with events := s.events ++ [Ev.amFetch p] } := by
  conv_lhs => rw [am730PdfLoop]
  rw [h, hr]
  simp [h429, h200]

theorem am730JpgLoop_break_status (env : Am730Env) (p : Nat) (rest : List Nat)
    (s : St) (c : Nat) (h : memN s.store p = false)
    (hr : env.resp p = Resp.status c) (h429 : c ≠ 429) (h200 : c ≠ 200) :
    am730JpgLoop env (p :: rest) s =
      { s with events := s.events ++ [Ev.amFetch p] } := by
  conv_lhs => rw [am730JpgLoop]
  rw [h, hr]
  simp [h429, h200]

theorem am730PdfLoop_ok (env : Am730Env) (p : Nat) (rest : List Nat) (s : St)
    (h : memN s.store p = false) (hr : env.resp p = Resp.status 200)
    (hc : env.convOk p = true) (hu : env.upOk p = true) :
    am730PdfLoop env (p :: rest) s =
      am730PdfLoop env rest
        { store := s.store ++ [p],
          temps := s.temps.filter
            (fun t => t != TempFile.amPdf p && t != TempFile.amJpg p),
          events := s.events ++ [Ev.amFetch p, Ev.amConvert p, Ev.amUpload p],
          count := s.count + 1 } := by
  conv_lhs => rw [am730PdfLoop]
  rw [h, hr]
  simp [hc, hu, List.filter_append, List.append_assoc]

theorem am730JpgLoop_ok (env : Am730Env) (p : Nat) (rest : List Nat) (s : St)
    (h : memN s.store p = false) (hr : env.resp p = Resp.status 200)
    (hu : env.upOk p = true) :
    am730JpgLoop env (p :: rest) s =
      am730JpgLoop env rest
        { store := s.store ++ [p],
          temps := s.temps.filter (fun t => t != TempFile.amJpg p),
          events := s.events ++ [Ev.amFetch p, Ev.amUpload p],
          count := s.count + 1 } := by
  conv_lhs => rw [am730JpgLoop]
  rw [h, hr]
  simp [hu, List.filter_append, List.append_assoc]

theorem am730PdfLoop_midStream (env : Am730Env) (p : Nat) (rest : List Nat)
    (s : St) (h : memN s.store p = false) (hr : env.resp p = Resp.midStream) :
    am730PdfLoop env (p :: rest) s =
      { s with events := s.events ++ [Ev.amFetch p],
               temps := s.temps ++ [TempFile.amPdf p] } := by
  conv_lhs => rw [am730PdfLoop]
  rw [h, hr]
  simp

theorem am730JpgLoop_midStream (env : Am730Env) (p : Nat) (rest : List Nat)
    (s : St) (h : memN s.store p = false) (hr : env.resp p = Resp.midStream) :
    am730JpgLoop env (p :: rest) s =
      { s with events := s.events ++ [Ev.amFetch p],
               temps := s.temps ++ [TempFile.amJpg p] } := by
  conv_lhs => rw [am730JpgLoop]
  rw [h, hr]
  simp

theorem am730PdfLoop_netErr (env : Am730Env) (p : Nat) (rest : List Nat)
    (s : St) (h : memN s.store p = false) (hr : env.resp p = Resp.netErr) :
    am730PdfLoop env (p :: rest) s =
      { s with events := s.events ++ [Ev.amFetch p] } := by
  conv_lhs => rw [am730PdfLoop]
  rw [h, hr]
  simp

theorem am730JpgLoop_netErr (env : Am730Env) (p : Nat) (rest : List Nat)
    (s : St) (h : memN s.store p = false) (hr : env.resp p = Resp.netErr) :
    am730JpgLoop env (p :: rest) s =
      { s with events := s.events ++ [Ev.amFetch p] } := by
  conv_lhs => rw [am730JpgLoop]
  rw [h, hr]
  simp

theorem am730PdfLoop_upFail (env : Am730Env) (p : Nat) (rest : List Nat)
    (s : St) (h : memN s.store p = false) (hr : env.resp p = Resp.status 200)
    (hc : env.convOk p = true) (hu : env.upOk p = false) :
    am730PdfLoop env (p :: rest) s =
      am730PdfLoop env rest
        { s with
          temps := s.temps.filter
            (fun t => t != TempFile.amPdf p && t != TempFile.amJpg p),
          events := s.events ++ [Ev.amFetch p, Ev.amConvert p, Ev.amUpload p] } := by
  conv_lhs => rw [am730PdfLoop]
  rw [h, hr]
  simp [hc, hu, List.filter_append, List.append_assoc]

theorem am730JpgLoop_upFail (env : Am730Env) (p : Nat) (rest : List Nat)
    (s : St) (h : memN s.store p = false) (hr : env.resp p = Resp.status 200)
    (hu : env.upOk p = false) :
    am730JpgLoop env (p :: rest) s =
      am730JpgLoop env rest
        { s with temps := s.temps.filter (fun t => t != TempFile.amJpg p),
                 events := s.events ++ [Ev.amFetch p, Ev.amUpload p] } := by
  conv_lhs => rw [am730JpgLoop]
  rw [h, hr]
  simp [hu, List.filter_append, List.append_assoc]

theorem am730PdfLoop_convFail (env : Am730Env) (p : Nat) (rest : List Nat)
    (s : St) (h : memN s.store p = false) (hr : env.resp p = Resp.status 200)
    (hc : env.convOk p = false) :
    am730PdfLoop env (p :: rest) s =
      am730PdfLoop env rest
        { s with
          temps := s.temps.filter
            (fun t => t != TempFile.amPdf p && t != TempFile.amJpg p),
          events := s.events ++ [Ev.amFetch p, Ev.amConvert p] } := by
  conv_lhs => rw [am730PdfLoop]
  rw [h, hr]
  simp [hc, List.filter_append, List.append_assoc]

/-- Every page either hands the loop a successor state with at most
one more counted page and no new fetch events beyond its own page, or
halts the loop with the same bounds. -/
theorem am730PdfLoop_cons_cases (env : Am730Env) (p : Nat) (rest : List Nat)
    (s : St) :
    (∃ s2, am730PdfLoop env (p :: rest) s = am730PdfLoop env rest s2 ∧
        s2.count ≤ s.count + 1 ∧
        (∀ q, Ev.amFetch q ∈ s2.events → Ev.amFetch q ∈ s.events ∨ q = p)) ∨
    ((am730PdfLoop env (p :: rest) s).count ≤ s.count + 1 ∧
      (∀ q, Ev.amFetch q ∈ (am730PdfLoop env (p :: rest) s).events →
        Ev.amFetch q ∈ s.events ∨ q = p)) := by
  by_cases hmem : memN s.store p = true
  · left
    exact ⟨_, am730PdfLoop_skip env p rest s hmem, by simp,
      fun q hq => Or.inl hq⟩
  · have hmem' : memN s.store p = false := by simpa using hmem
    rcases hrsp : env.resp p with c | _ | _
    · by_cases h429 : c = 429
      · subst h429
        right
        rw [am730PdfLoop_429 env p rest s hmem' hrsp]
        refine ⟨by simp, fun q hq => ?_⟩
        simp at hq
        tauto
      · by_cases h200 : c = 200
        · subst h200
          by_cases hc : env.convOk p = true
          · by_cases hu : env.upOk p = true
            · left
              refine ⟨_, am730PdfLoop_ok env p rest s hmem' hrsp hc hu,
                by simp, fun q hq => ?_⟩
              simp at hq
              tauto
            · left
              have hu' : env.upOk p = false := by simpa using hu
              refine ⟨_, am730PdfLoop_upFail env p rest s hmem' hrsp hc hu',
                by simp, fun q hq => ?_⟩
              simp at hq
              tauto
          · left
            have hc' : env.convOk p = false := by simpa using hc
            refine ⟨_, am730PdfLoop_convFail env p rest s hmem' hrsp hc',
              by simp, fun q hq => ?_⟩
            simp at hq
            tauto
        · right
          rw [am730PdfLoop_break_status env p rest s c hmem' hrsp h429 h200]
          refine ⟨by simp, fun q hq => ?_⟩
          simp at hq
          tauto
    · right
      rw [am730PdfLoop_netErr env p rest s hmem' hrsp]
      refine ⟨by simp, fun q hq => ?_⟩
      simp at hq
      tauto
    · right
      rw [am730PdfLoop_midStream env p rest s hmem' hrsp]
      refine ⟨by simp, fun q hq => ?_⟩
      simp at hq
      tauto

/-- Jpg-loop analogue of the per-page case analysis. -/
theorem am730JpgLoop_cons_cases (env : Am730Env) (p : Nat) (rest : List Nat)
    (s : St) :
    (∃ s2, am730JpgLoop env (p :: rest) s = am730JpgLoop env rest s2 ∧
        s2.count ≤ s.count + 1 ∧
        (∀ q, Ev.amFetch q ∈ s2.events → Ev.amFetch q ∈ s.events ∨ q = p)) ∨
    ((am730JpgLoop env (p :: rest) s).count ≤ s.count + 1 ∧
      (∀ q, Ev.amFetch q ∈ (am730JpgLoop env (p :: rest) s).events →
        Ev.amFetch q ∈ s.events ∨ q = p)) := by
  by_cases hmem : memN s.store p = true
  · left
    exact ⟨_, am730JpgLoop_skip env p rest s hmem, by simp,
      fun q hq => Or.inl hq⟩
  · have hmem' : memN s.store p = false := by simpa using hmem
    rcases hrsp : env.resp p with c | _ | _
    · by_cases h429 : c = 429
      · subst h429
        right
        rw [am730JpgLoop_429 env p rest s hmem' hrsp]
        refine ⟨by simp, fun q hq => ?_⟩
        simp at hq
        tauto
      · by_cases h200 : c = 200
        · subst h200
          by_cases hu : env.upOk p = true
          · left
            refine ⟨_, am730JpgLoop_ok env p rest s hmem' hrsp hu,
              by simp, fun q hq => ?_⟩
            simp at hq
            tauto
          · left
            have hu' : env.upOk p = false := by simpa using hu
            refine ⟨_, am730JpgLoop_upFail env p rest s hmem' hrsp hu',
              by simp, fun q hq => ?_⟩
            simp at hq
            tauto
        · right
          rw [am730JpgLoop_break_status env p rest s c hmem' hrsp h429 h200]
          refine ⟨by simp, fun q hq => ?_⟩
          simp at hq
          tauto
    · right
      rw [am730JpgLoop_netErr env p rest s hmem' hrsp]
      refine ⟨by simp, fun q hq => ?_⟩
      simp at hq
      tauto
    · right
      rw [am730JpgLoop_midStream env p rest s hmem' hrsp]
      refine ⟨by simp, fun q hq => ?_⟩
      simp at hq
      tauto

theorem am730PdfLoop_bounds (env : Am730Env) :
    ∀ (l : List Nat) (s : St),
      (am730PdfLoop env l s).count ≤ s.count + l.length ∧
      (∀ p, Ev.amFetch p ∈ (am730PdfLoop env l s).events →
        Ev.amFetch p ∈ s.events ∨ p ∈ l) := by
  intro l
  induction l with
  | nil => intro s; exact ⟨by simp [am730PdfLoop], fun p hp => Or.inl hp⟩
  | cons p rest ih =>
    intro s
    rcases am730PdfLoop_cons_cases env p rest s with
      ⟨s2, heq, hcnt, hev⟩ | ⟨hcnt, hev⟩
    · rw [heq]
      rcases ih s2 with ⟨ihc, ihe⟩
      constructor
      · simp only [List.length_cons]
        omega
      · intro q hq
        rcases ihe q hq with h | h
        · rcases hev q h with h2 | h2
          · exact Or.inl h2
          · exact Or.inr (by simp [h2])
        · exact Or.inr (by simp [h])
    · constructor
      · simp only [List.length_cons]
        omega
      · intro q hq
        rcases hev q hq with h | h
        · exact Or.inl h
        · exact Or.inr (by simp [h])

theorem am730JpgLoop_bounds (env : Am730Env) :
    ∀ (l : List Nat) (s : St),
      (am730JpgLoop env l s).count ≤ s.count + l.length ∧
      (∀ p, Ev.amFetch p ∈ (am730JpgLoop env l s).events →
        Ev.amFetch p ∈ s.events ∨ p ∈ l) := by
  intro l
  induction l with
  | nil => intro s; exact ⟨by simp [am730JpgLoop], fun p hp => Or.inl hp⟩
  | cons p rest ih =>
    intro s
    rcases am730JpgLoop_cons_cases env p rest s with
      ⟨s2, heq, hcnt, hev⟩ | ⟨hcnt, hev⟩
    · rw [heq]
      rcases ih s2 with ⟨ihc, ihe⟩
      constructor
      · simp only [List.length_cons]
        omega
      · intro q hq
        rcases ihe q hq with h | h
        · rcases hev q h with h2 | h2
          · exact Or.inl h2
          · exact Or.inr (by simp [h2])
        · exact Or.inr (by simp [h])
    · constructor
      · simp only [List.length_cons]
        omega
      · intro q hq
        rcases hev q hq with h | h
        · exact Or.inl h
        · exact Or.inr (by simp [h])

/-- Claim C10: both am730 per-date loops probe page numbers only from
the hard-coded range 1..200, so the processed-page count they return
is at most 200 and every fetched page number lies in 1..200, whatever
the remote endpoint responds. -/
theorem am730_page_bound (env : Am730Env) (store0 : List Nat) :
    (download_and_convert_pdf env store0).count ≤ 200 ∧
    (∀ p, Ev.amFetch p ∈ (download_and_convert_pdf env store0).events →
      1 ≤ p ∧ p ≤ 200) ∧
    (download_jpg_pages env store0).count ≤ 200 ∧
    (∀ p, Ev.amFetch p ∈ (download_jpg_pages env store0).events →
      1 ≤ p ∧ p ≤ 200) := by
  have hlen : pagesRange.length = 200 := by simp [pagesRange]
  have hmem : ∀ p, p ∈ pagesRange → 1 ≤ p ∧ p ≤ 200 := by
    intro p hp
    simp only [pagesRange, List.mem_range'_1] at hp
    omega
  rcases am730PdfLoop_bounds env pagesRange (initSt store0) with ⟨hc1, he1⟩
  rcases am730JpgLoop_bounds env pagesRange (initSt store0) with ⟨hc2, he2⟩
  refine ⟨?_, ?_, ?_, ?_⟩
  · have := hc1
    simp [initSt, hlen] at this
    exact this
  · intro p hp
    rcases he1 p hp with h | h
    · simp [initSt] at h
    · exact hmem p h
  · have := hc2
    simp [initSt, hlen] at this
    exact this
  · intro p hp
    rcases he2 p hp with h | h
    · simp [initSt] at h
    · exact hmem p h

/-- Witness for C10 with the all-mid-stream environment and an empty
store: the loop halts immediately with zero processed pages. -/
theorem am730_page_bound_witness :
    (download_and_convert_pdf envMidStream []).count ≤ 200 := by
  exact (am730_page_bound envMidStream []).1

/-! ## Claim C4: behaviour on HTTP 429 -/

/-- Counterexample to claim C4 as stated: in the TaKungPao scraper a
429 received while downloading the first artifact does not stop the
date; the scraper goes on to pre-fetch and download the second
artifact (events download 1, convert 2, upload 2 all occur after the
429 was received on download 0). -/
theorem rate_limit_counterexample :
    art429.dlResp = Resp.status 429 ∧
    (scrape_date [art429, artOk] []).1.events =
      [Ev.preFetch 0, Ev.download 0, Ev.preFetch 1, Ev.download 1,
       Ev.convert 2, Ev.upload 2] := by
  exact ⟨rfl, by decide⟩

/-- Claim C4 (amended): in the am730 scraper a 429 on any page fetch
halts the date immediately — the loop returns with only that fetch
recorded, the remaining pages are never requested, and the store and
processed-page count (the pages processed before the 429) are left
exactly as they were.  The TaKungPao scraper instead treats 429 as an
ordinary failed download: the artifact is logged as missing, the page
counter advances by its expected page count, the date is flagged as
failed, and the artifact loop continues with further fetches. -/
theorem rate_limit_halts_am730 :
    (∀ env p rest s, memN s.store p = false →
      env.resp p = Resp.status 429 →
      am730PdfLoop env (p :: rest) s =
        { s with events := s.events ++ [Ev.amFetch p] }) ∧
    (∀ env p rest s, memN s.store p = false →
      env.resp p = Resp.status 429 →
      am730JpgLoop env (p :: rest) s =
        { s with events := s.events ++ [Ev.amFetch p] }) ∧
    (∀ e i start s fail, allExpectedExist e s.store start = false →
      e.dlResp = Resp.status 429 →
      processArtifact e i start s fail =
        ({ s with events := s.events ++ [Ev.preFetch i, Ev.download i] },
          expectedPages e, true)) := by
  refine ⟨?_, ?_, ?_⟩
  · intro env p rest s h hr
    exact am730PdfLoop_429 env p rest s h hr
  · intro env p rest s h hr
    exact am730JpgLoop_429 env p rest s h hr
  · intro e i start s fail hall hr
    unfold processArtifact
    dsimp only
    rw [hall, hr]
    simp

/-- Witness for the amended C4: in the all-429 environment with an
empty store, the PDF-variant loop on page 1 stops at once with only
that fetch in the trace. -/
theorem rate_limit_halts_am730_witness :
    am730PdfLoop envAm429 [1] (initSt []) =
      { initSt [] with events := (initSt []).events ++ [Ev.amFetch 1] } := by
  exact rate_limit_halts_am730.1 envAm429 1 [] (initSt []) rfl rfl

/-! ## Claim C9: temporary-file cleanup -/

theorem am730PdfLoop_no_temps (env : Am730Env)
    (hmid : ∀ p, env.resp p ≠ Resp.midStream) :
    ∀ (l : List Nat) (s : St), s.temps = [] →
      (am730PdfLoop env l s).temps = [] := by
  intro l
  induction l with
  | nil => intro s hs; simpa [am730PdfLoop] using hs
  | cons p rest ih =>
    intro s hs
    by_cases hmem : memN s.store p = true
    · rw [am730PdfLoop_skip env p rest s hmem]
      exact ih _ hs
    · have hmem' : memN s.store p = false := by simpa using hmem
      rcases hrsp : env.resp p with c | _ | _
      · by_cases h429 : c = 429
        · subst h429
          rw [am730PdfLoop_429 env p rest s hmem' hrsp]
          exact hs
        · by_cases h200 : c = 200
          · subst h200
            by_cases hc : env.convOk p = true
            · by_cases hu : env.upOk p = true
              · rw [am730PdfLoop_ok env p rest s hmem' hrsp hc hu]
                exact ih _ (by simp [hs])
              · rw [am730PdfLoop_upFail env p rest s hmem' hrsp hc
                  (by simpa using hu)]
                exact ih _ (by simp [hs])
            · rw [am730PdfLoop_convFail env p rest s hmem' hrsp
                (by simpa using hc)]
              exact ih _ (by simp [hs])
          · rw [am730PdfLoop_break_status env p rest s c hmem' hrsp h429 h200]
            exact hs
      · rw [am730PdfLoop_netErr env p rest s hmem' hrsp]
        exact hs
      · exact absurd hrsp (hmid p)

theorem am730JpgLoop_no_temps (env : Am730Env)
    (hmid : ∀ p, env.resp p ≠ Resp.midStream) :
    ∀ (l : List Nat) (s : St), s.temps = [] →
      (am730JpgLoop env l s).temps = [] := by
  intro l
  induction l with
  | nil => intro s hs; simpa [am730JpgLoop] using hs
  | cons p rest ih =>
    intro s hs
    by_cases hmem : memN s.store p = true
    · rw [am730JpgLoop_skip env p rest s hmem]
      exact ih _ hs
    · have hmem' : memN s.store p = false := by simpa using hmem
      rcases hrsp : env.resp p with c | _ | _
      · by_cases h429 : c = 429
        · subst h429
          rw [am730JpgLoop_429 env p rest s hmem' hrsp]
          exact hs
        · by_cases h200 : c = 200
          · subst h200
            by_cases hu : env.upOk p = true
            · rw [am730JpgLoop_ok env p rest s hmem' hrsp hu]
              exact ih _ (by simp [hs])
            · rw [am730JpgLoop_upFail env p rest s hmem' hrsp
                (by simpa using hu)]
              exact ih _ (by simp [hs])
          · rw [am730JpgLoop_break_status env p rest s c hmem' hrsp h429 h200]
            exact hs
      · rw [am730JpgLoop_netErr env p rest s hmem' hrsp]
        exact hs
      · exact absurd hrsp (hmid p)

/-- The page loop of `convert_pdf_and_upload` leaves the temp-file set
exactly as it found it, provided no JPG temp of this artifact is
already on disk (each page's temp JPG is created and then removed in
the `finally` block). -/
theorem convLoop_temps (e : PdfEnv) (pdfIdx start : Nat) :
    ∀ (l : List Nat) (s : St) (c : Nat),
      (∀ j, TempFile.tkJpg pdfIdx j ∉ s.temps) →
      (convLoop e pdfIdx start l s c).1.temps = s.temps := by
  intro l
  induction l with
  | nil => intro s c _; rfl
  | cons i rest ih =>
    intro s c hnoj
    by_cases hmem : memN s.store (start + i) = true
    · show (convLoop e pdfIdx start (i :: rest) s c).1.temps = s.temps
      conv_lhs => rw [convLoop]
      rw [hmem]
      simp only [if_true]
      exact ih s (c + 1) hnoj
    · have hmem' : memN s.store (start + i) = false := by simpa using hmem
      have hfilter : ∀ (ts : List TempFile), (∀ j, TempFile.tkJpg pdfIdx j ∉ ts) →
          ts.filter (fun t => t != TempFile.tkJpg pdfIdx i) = ts := by
        intro ts hts
        apply List.filter_eq_self.mpr
        intro t ht
        have : t ≠ TempFile.tkJpg pdfIdx i := by
          intro hcon
          exact hts i (hcon ▸ ht)
        simpa using this
      by_cases hc : e.convOk i = true
      · show (convLoop e pdfIdx start (i :: rest) s c).1.temps = s.temps
        conv_lhs => rw [convLoop]
        rw [hmem']
        simp only [Bool.false_eq_true, if_false, hc, if_true]
        by_cases hu : e.upOk i = true
        · simp only [hu, if_true]
          rw [ih _ _ (by
            intro j
            simp only [List.mem_filter]
            rintro ⟨hj, hbne⟩
            rcases List.mem_append.mp hj with hj2 | hj2
            · exact hnoj j hj2
            · simp only [List.mem_singleton, TempFile.tkJpg.injEq] at hj2
              rcases hj2 with ⟨-, hj2⟩
              subst hj2
              simp at hbne)]
          rw [List.filter_append]
          simp [hfilter s.temps hnoj]
        · simp only [hu, Bool.false_eq_true, if_false]
          rw [ih _ _ (by
            intro j
            simp only [List.mem_filter]
            rintro ⟨hj, hbne⟩
            rcases List.mem_append.mp hj with hj2 | hj2
            · exact hnoj j hj2
            · simp only [List.mem_singleton, TempFile.tkJpg.injEq] at hj2
              rcases hj2 with ⟨-, hj2⟩
              subst hj2
              simp at hbne)]
          rw [List.filter_append]
          simp [hfilter s.temps hnoj]
      · show (convLoop e pdfIdx start (i :: rest) s c).1.temps = s.temps
        conv_lhs => rw [convLoop]
        rw [hmem']
        simp only [Bool.false_eq_true, if_false, hc]
        rw [ih _ _ (by
          intro j
          simp only [List.mem_filter]
          intro ⟨hj, _⟩
          exact hnoj j hj)]
        exact hfilter s.temps hnoj

/-- When the download does not die mid-stream, one TaKungPao artifact
iteration restores the empty temp directory: the downloaded PDF and
every page JPG are removed on all exit paths. -/
theorem processArtifact_no_temps (e : PdfEnv) (i start : Nat) (s : St)
    (fail : Bool) (hmid : e.dlResp ≠ Resp.midStream) (hs : s.temps = []) :
    (processArtifact e i start s fail).1.temps = [] := by
  unfold processArtifact
  dsimp only
  by_cases hall : allExpectedExist e s.store start = true
  · rw [hall]
    simpa using hs
  · rw [show allExpectedExist e s.store start = false by simpa using hall]
    simp only [Bool.false_eq_true, if_false]
    by_cases hdl : e.dlResp = Resp.status 200
    · rw [hdl]
      simp only [if_true]
      unfold convert_pdf_and_upload
      rcases hop : e.openPages with _ | n
      · simp [hs]
      · dsimp only
        have hconv := convLoop_temps e i start (List.range n)
          { store := s.store, temps := s.temps ++ [TempFile.tkPdf i],
            events := s.events ++ [Ev.preFetch i, Ev.download i],
            count := s.count } 0
          (by intro j; simp [hs])
        simp only [List.append_assoc, List.singleton_append] at hconv ⊢
        rw [hconv]
        simp [hs]
    · rw [if_neg hdl, if_neg hmid]
      simpa using hs

theorem scrapeLoop_no_temps :
    ∀ (es : List PdfEnv) (i start : Nat) (s : St) (fail : Bool),
      (∀ e ∈ es, e.dlResp ≠ Resp.midStream) → s.temps = [] →
      (scrapeLoop es i start s fail).1.temps = [] := by
  intro es
  induction es with
  | nil => intro i start s fail _ hs; simpa [scrapeLoop] using hs
  | cons e rest ih =>
    intro i start s fail hmid hs
    show (scrapeLoop (e :: rest) i start s fail).1.temps = []
    conv_lhs => rw [scrapeLoop]
    exact ih (i + 1) _ _ _ (fun e2 he2 => hmid e2 (List.mem_cons_of_mem e he2))
      (processArtifact_no_temps e i start s fail
        (hmid e (List.mem_cons_self e rest)) hs)

/-- Counterexample to claim C9 as stated: when the download of am730
page 1 dies mid-stream (a network error while streaming the response
body), the partially written temp PDF page_0001.pdf is left on disk
after the date's processing completes. -/
theorem temp_leak_counterexample :
    (download_and_convert_pdf envMidStream []).temps = [TempFile.amPdf 1] := by
  decide

/-- Claim C9 (amended): on every per-page exit path other than a
mid-stream network failure — success, conversion failure, upload
failure, not-found, rate-limit, or a network error raised before the
body is streamed — all temporary files are removed, so runs whose
downloads never die mid-stream end every date with an empty temp
directory; a mid-stream failure, however, leaves the partially
downloaded file behind (see the counterexample). -/
theorem temp_cleanup :
    (∀ env store0, (∀ p, env.resp p ≠ Resp.midStream) →
      (download_and_convert_pdf env store0).temps = []) ∧
    (∀ env store0, (∀ p, env.resp p ≠ Resp.midStream) →
      (download_jpg_pages env store0).temps = []) ∧
    (∀ es store0, (∀ e ∈ es, e.dlResp ≠ Resp.midStream) →
      (scrape_date es store0).1.temps = []) := by
  refine ⟨?_, ?_, ?_⟩
  · intro env store0 hmid
    exact am730PdfLoop_no_temps env hmid pagesRange (initSt store0) rfl
  · intro env store0 hmid
    exact am730JpgLoop_no_temps env hmid pagesRange (initSt store0) rfl
  · intro es store0 hmid
    exact scrapeLoop_no_temps es 0 1 (initSt store0) false hmid rfl

/-- Witness for the amended C9: the happy five-page am730 run and the
three-artifact TaKungPao run both end with no temp files. -/
theorem temp_cleanup_witness :
    (download_and_convert_pdf envPages5 []).temps = [] ∧
    (scrape_date envSlots111 []).1.temps = [] := by
  constructor
  · refine temp_cleanup.1 envPages5 [] ?_
    intro p
    unfold envPages5
    by_cases h : p ≤ 5 <;> simp [h]
  · refine temp_cleanup.2.2 envSlots111 [] ?_
    intro e he
    simp only [envSlots111, List.mem_cons, List.not_mem_nil, or_false] at he
    rcases he with he | he | he <;> subst he <;> decide

/-! ## Claim C2: skip-if-exists -/

theorem convLoop_skip (e : PdfEnv) (pdfIdx start i : Nat) (rest : List Nat)
    (s : St) (c : Nat) (h : memN s.store (start + i) = true) :
    convLoop e pdfIdx start (i :: rest) s c =
      convLoop e pdfIdx start rest s (c + 1) := by
  conv_lhs => rw [convLoop]
  rw [h]
  simp

/-- Counterexample to claim C2 as stated: an artifact whose page-count
pre-check fails (returns None) is re-downloaded even though the blob
of its only page already exists — the trace of the re-run contains the
download event.  The page itself is still neither re-converted nor
re-uploaded and the store is unchanged. -/
theorem skip_if_exists_counterexample :
    memN [1] 1 = true ∧
    artNoPre.preCount = none ∧
    (scrape_date [artNoPre] [1]).1.events = [Ev.preFetch 0, Ev.download 0] ∧
    (scrape_date [artNoPre] [1]).1.store = [1] := by
  exact ⟨rfl, rfl, by decide, by decide⟩

/-- Claim C2 (amended): for every page whose blob already exists, a
re-run never re-converts the page, never re-uploads it, and performs
no storage write for it; when the TaKungPao page-count pre-check
succeeds and all the artifact's expected pages exist, the artifact is
not downloaded at all (only the pre-check request happens); in the
am730 scraper an existing page is neither fetched nor uploaded.  But
when the pre-check fails the TaKungPao scraper re-downloads the
artifact even if every page of it already exists (see the
counterexample), relying on the per-page skip inside
`convert_pdf_and_upload`. -/
theorem skip_if_exists :
    (∀ e i start s fail n, e.preCount = some n →
      (∀ j, j < n → memN s.store (start + j) = true) →
      processArtifact e i start s fail =
        ({ s with events := s.events ++ [Ev.preFetch i] }, n, fail)) ∧
    (∀ e pdfIdx start i rest s c, memN s.store (start + i) = true →
      convLoop e pdfIdx start (i :: rest) s c =
        convLoop e pdfIdx start rest s (c + 1)) ∧
    (∀ env p rest s, memN s.store p = true →
      am730PdfLoop env (p :: rest) s =
        am730PdfLoop env rest { s with count := s.count + 1 }) ∧
    (∀ env p rest s, memN s.store p = true →
      am730JpgLoop env (p :: rest) s =
        am730JpgLoop env rest { s with count := s.count + 1 }) := by
  refine ⟨?_, ?_, ?_, ?_⟩
  · intro e i start s fail n hpre hmem
    have hall : allExpectedExist e s.store start = true := by
      unfold allExpectedExist
      rw [hpre, List.all_eq_true]
      intro j hj
      exact hmem j (List.mem_range.mp hj)
    unfold processArtifact
    dsimp only
    rw [hall]
    simp [expectedPages, hpre]
  · intro e pdfIdx start i rest s c h
    exact convLoop_skip e pdfIdx start i rest s c h
  · intro env p rest s h
    exact am730PdfLoop_skip env p rest s h
  · intro env p rest s h
    exact am730JpgLoop_skip env p rest s h

/-- Witness for the amended C2: a fully pre-existing single-page
artifact produces only the pre-check event, and an existing am730 page
is skipped without a fetch. -/
theorem skip_if_exists_witness :
    processArtifact artOk 0 1 (initSt [1]) false =
        ({ initSt [1] with events := [Ev.preFetch 0] }, 1, false) ∧
      am730PdfLoop envPages5 [1] (initSt [1]) =
        am730PdfLoop envPages5 [] { initSt [1] with count := 1 } := by
  constructor
  · have h := skip_if_exists.1 artOk 0 1 (initSt [1]) false 1 rfl
      (fun j hj => by interval_cases j; rfl)
    simpa using h
  · have h := skip_if_exists.2.2.1 envPages5 1 [] (initSt [1]) rfl
    simpa using h

/-! ## Claim C5: the sequential probe on a happy path -/

theorem memN_range'_false (a n p : Nat) (h : p < a ∨ a + n ≤ p) :
    memN (List.range' a n) p = false := by
  unfold memN
  rw [List.any_eq_false]
  intro x hx
  simp only [List.mem_range'_1] at hx
  simp only [beq_iff_eq]
  omega

theorem range'_one_concat (k : Nat) :
    List.range' 1 k ++ [k + 1] = List.range' 1 (k + 1) := by
  rw [List.range'_1_concat]
  congr 1
  simp [Nat.add_comm]

theorem am730PdfLoop_happy (env : Am730Env) (N : Nat) (hN : N + 1 ≤ 200)
    (hok : ∀ p, 1 ≤ p → p ≤ N →
      env.resp p = Resp.status 200 ∧ env.convOk p = true ∧ env.upOk p = true)
    (hstop : env.resp (N + 1) = Resp.status 403 ∨
      env.resp (N + 1) = Resp.status 404) :
    ∀ k, k ≤ N →
      am730PdfLoop env (List.range' (k + 1) (200 - k))
          { store := List.range' 1 k, temps := [],
            events := happyPdfEvts k, count := k } =
        { store := List.range' 1 N, temps := [],
          events := happyPdfEvts N ++ [Ev.amFetch (N + 1)], count := N } := by
  suffices h : ∀ j k, N - k = j → k ≤ N →
      am730PdfLoop env (List.range' (k + 1) (200 - k))
          { store := List.range' 1 k, temps := [],
            events := happyPdfEvts k, count := k } =
        { store := List.range' 1 N, temps := [],
          events := happyPdfEvts N ++ [Ev.amFetch (N + 1)], count := N } by
    intro k hk
    exact h (N - k) k rfl hk
  intro j
  induction j with
  | zero =>
    intro k hj hk
    have hkN : k = N := by omega
    subst hkN
    have hsz : 200 - k = (199 - k) + 1 := by omega
    rw [hsz, List.range'_succ]
    have hmem : memN (List.range' 1 k) (k + 1) = false :=
      memN_range'_false 1 k (k + 1) (by omega)
    rcases hstop with h4 | h4
    · rw [am730PdfLoop_break_status env (k + 1) _ _ 403 hmem h4
        (by omega) (by omega)]
    · rw [am730PdfLoop_break_status env (k + 1) _ _ 404 hmem h4
        (by omega) (by omega)]
  | succ j ihj =>
    intro k hj hk
    have hkN : k < N := by omega
    obtain ⟨hr, hc, hu⟩ := hok (k + 1) (by omega) (by omega)
    have hsz : 200 - k = (199 - k) + 1 := by omega
    rw [hsz, List.range'_succ]
    have hmem : memN (List.range' 1 k) (k + 1) = false :=
      memN_range'_false 1 k (k + 1) (by omega)
    rw [am730PdfLoop_ok env (k + 1) _ _ hmem hr hc hu]
    have hrec :
        ({ store := List.range' 1 k ++ [k + 1],
           temps := List.filter
             (fun t => t != TempFile.amPdf (k + 1) &&
               t != TempFile.amJpg (k + 1)) [],
           events := happyPdfEvts k ++ [Ev.amFetch (k + 1),
             Ev.amConvert (k + 1), Ev.amUpload (k + 1)],
           count := k + 1 } : St) =
        { store := List.range' 1 (k + 1), temps := [],
          events := happyPdfEvts (k + 1), count := k + 1 } := by
      rw [range'_one_concat k]
      rfl
    rw [hrec]
    have h2 : 199 - k = 200 - (k + 1) := by omega
    have h3 : k + 1 + 1 = k + 2 := rfl
    rw [h2]
    exact ihj (k + 1) (by omega) (by omega)

theorem am730JpgLoop_happy (env : Am730Env) (N : Nat) (hN : N + 1 ≤ 200)
    (hok : ∀ p, 1 ≤ p → p ≤ N →
      env.resp p = Resp.status 200 ∧ env.upOk p = true)
    (hstop : env.resp (N + 1) = Resp.status 403 ∨
      env.resp (N + 1) = Resp.status 404) :
    ∀ k, k ≤ N →
      am730JpgLoop env (List.range' (k + 1) (200 - k))
          { store := List.range' 1 k, temps := [],
            events := happyJpgEvts k, count := k } =
        { store := List.range' 1 N, temps := [],
          events := happyJpgEvts N ++ [Ev.amFetch (N + 1)], count := N } := by
  suffices h : ∀ j k, N - k = j → k ≤ N →
      am730JpgLoop env (List.range' (k + 1) (200 - k))
          { store := List.range' 1 k, temps := [],
            events := happyJpgEvts k, count := k } =
        { store := List.range' 1 N, temps := [],
          events := happyJpgEvts N ++ [Ev.amFetch (N + 1)], count := N } by
    intro k hk
    exact h (N - k) k rfl hk
  intro j
  induction j with
  | zero =>
    intro k hj hk
    have hkN : k = N := by omega
    subst hkN
    have hsz : 200 - k = (199 - k) + 1 := by omega
    rw [hsz, List.range'_succ]
    have hmem : memN (List.range' 1 k) (k + 1) = false :=
      memN_range'_false 1 k (k + 1) (by omega)
    rcases hstop with h4 | h4
    · rw [am730JpgLoop_break_status env (k + 1) _ _ 403 hmem h4
        (by omega) (by omega)]
    · rw [am730JpgLoop_break_status env (k + 1) _ _ 404 hmem h4
        (by omega) (by omega)]
  | succ j ihj =>
    intro k hj hk
    have hkN : k < N := by omega
    obtain ⟨hr, hu⟩ := hok (k + 1) (by omega) (by omega)
    have hsz : 200 - k = (199 - k) + 1 := by omega
    rw [hsz, List.range'_succ]
    have hmem : memN (List.range' 1 k) (k + 1) = false :=
      memN_range'_false 1 k (k + 1) (by omega)
    rw [am730JpgLoop_ok env (k + 1) _ _ hmem hr hu]
    have hrec :
        ({ store := List.range' 1 k ++ [k + 1],
           temps := List.filter (fun t => t != TempFile.amJpg (k + 1)) [],
           events := happyJpgEvts k ++ [Ev.amFetch (k + 1),
             Ev.amUpload (k + 1)],
           count := k + 1 } : St) =
        { store := List.range' 1 (k + 1), temps := [],
          events := happyJpgEvts (k + 1), count := k + 1 } := by
      rw [range'_one_concat k]
      rfl
    rw [hrec]
    have h2 : 199 - k = 200 - (k + 1) := by omega
    rw [h2]
    exact ihj (k + 1) (by omega) (by omega)

theorem happyPdfEvts_filter (k : Nat) :
    (happyPdfEvts k).filter isAmFetch = (List.range' 1 k).map Ev.amFetch := by
  induction k with
  | zero => rfl
  | succ j ih =>
    show (happyPdfEvts j ++ _).filter isAmFetch = _
    rw [List.filter_append, ih, ← range'_one_concat j, List.map_append]
    rfl

theorem happyJpgEvts_filter (k : Nat) :
    (happyJpgEvts k).filter isAmFetch = (List.range' 1 k).map Ev.amFetch := by
  induction k with
  | zero => rfl
  | succ j ih =>
    show (happyJpgEvts j ++ _).filter isAmFetch = _
    rw [List.filter_append, ih, ← range'_one_concat j, List.map_append]
    rfl

/-- Claim C5: if the remote endpoint returns 200 for pages 1..N (with
conversion and upload succeeding there), a not-found 403/404 for page
N+1 (within the probe's 1..200 domain), and no page blob pre-exists,
then both sequential-probe loops fetch exactly pages 1..N+1 (stopping
at N+1), store exactly pages 1..N, report N processed pages, and the
stored blob keys are the zero-padded 001..N keys. -/
theorem sequential_probe_stops (env : Am730Env) (N : Nat) (hN : N + 1 ≤ 200)
    (hok : ∀ p, 1 ≤ p → p ≤ N →
      env.resp p = Resp.status 200 ∧ env.convOk p = true ∧ env.upOk p = true)
    (hstop : env.resp (N + 1) = Resp.status 403 ∨
      env.resp (N + 1) = Resp.status 404) :
    (download_and_convert_pdf env []).store = List.range' 1 N ∧
    (download_and_convert_pdf env []).count = N ∧
    (download_and_convert_pdf env []).events.filter isAmFetch =
      (List.range' 1 (N + 1)).map Ev.amFetch ∧
    (∀ d, (download_and_convert_pdf env []).store.map
        (fun p => upload_blob_name "am730" d p "jpeg") =
      (List.range' 1 N).map
        (fun p => upload_blob_name "am730" d p "jpeg")) ∧
    (download_jpg_pages env []).store = List.range' 1 N ∧
    (download_jpg_pages env []).count = N ∧
    (download_jpg_pages env []).events.filter isAmFetch =
      (List.range' 1 (N + 1)).map Ev.amFetch := by
  have hpdf := am730PdfLoop_happy env N hN hok hstop 0 (by omega)
  have hjpg := am730JpgLoop_happy env N hN
    (fun p h1 h2 => ⟨(hok p h1 h2).1, (hok p h1 h2).2.2⟩) hstop 0 (by omega)
  have hinit : ({ store := List.range' 1 0, temps := [],
                  events := happyPdfEvts 0, count := 0 } : St) = initSt [] := rfl
  have hinitJ : ({ store := List.range' 1 0, temps := [],
                   events := happyJpgEvts 0, count := 0 } : St) = initSt [] := rfl
  rw [hinit] at hpdf
  rw [hinitJ] at hjpg
  have hpr : List.range' (0 + 1) (200 - 0) = pagesRange := rfl
  rw [hpr] at hpdf hjpg
  have hfetch : (happyPdfEvts N ++ [Ev.amFetch (N + 1)]).filter isAmFetch =
      (List.range' 1 (N + 1)).map Ev.amFetch := by
    rw [List.filter_append, happyPdfEvts_filter, ← range'_one_concat N,
      List.map_append]
    rfl
  have hfetchJ : (happyJpgEvts N ++ [Ev.amFetch (N + 1)]).filter isAmFetch =
      (List.range' 1 (N + 1)).map Ev.amFetch := by
    rw [List.filter_append, happyJpgEvts_filter, ← range'_one_concat N,
      List.map_append]
    rfl
  refine ⟨?_, ?_, ?_, ?_, ?_, ?_, ?_⟩
  · show (am730PdfLoop env pagesRange (initSt [])).store = _
    rw [hpdf]
  · show (am730PdfLoop env pagesRange (initSt [])).count = _
    rw [hpdf]
  · show (am730PdfLoop env pagesRange (initSt [])).events.filter isAmFetch = _
    rw [hpdf]
    exact hfetch
  · intro d
    show (am730PdfLoop env pagesRange (initSt [])).store.map _ = _
    rw [hpdf]
  · show (am730JpgLoop env pagesRange (initSt [])).store = _
    rw [hjpg]
  · show (am730JpgLoop env pagesRange (initSt [])).count = _
    rw [hjpg]
  · show (am730JpgLoop env pagesRange (initSt [])).events.filter isAmFetch = _
    rw [hjpg]
    exact hfetchJ

/-- Witness for C5 at N = 5: pages 1-5 return 200 and page 6 returns
404, so exactly the five pages 001..005 are stored. -/
theorem sequential_probe_stops_witness :
    (download_and_convert_pdf envPages5 []).store = [1, 2, 3, 4, 5] ∧
    (download_and_convert_pdf envPages5 []).count = 5 ∧
    (download_and_convert_pdf envPages5 []).store.map
        (fun p => upload_blob_name "am730" ⟨2018, 6, 11⟩ p "jpeg") =
      ["am730/2018/06/11/001.jpeg", "am730/2018/06/11/002.jpeg",
       "am730/2018/06/11/003.jpeg", "am730/2018/06/11/004.jpeg",
       "am730/2018/06/11/005.jpeg"] := by
  have h := sequential_probe_stops envPages5 5 (by omega)
    (fun p h1 h5 => ⟨by simp [envPages5, h5], rfl, rfl⟩)
    (Or.inr (by norm_num [envPages5]))
  refine ⟨?_, ?_, ?_⟩
  · rw [h.1]
    rfl
  · exact h.2.1
  · rw [h.1]
    decide

/-! ## Claim C1: contiguous 1-based output page numbering -/

/-- A failed download advances the output page counter by the expected
page count of the artifact. -/
theorem processArtifact_adv_dlfail (e : PdfEnv) (i start : Nat) (s : St)
    (fail : Bool) (h : e.dlResp ≠ Resp.status 200) :
    (processArtifact e i start s fail).2.1 = expectedPages e := by
  unfold processArtifact
  dsimp only
  by_cases hall : allExpectedExist e s.store start = true
  · rw [if_pos hall]
  · rw [if_neg hall, if_neg h]
    by_cases hmid : e.dlResp = Resp.midStream
    · rw [if_pos hmid]
    · rw [if_neg hmid]

/-- When the pre-checked count, the download and the actual page count
agree (as in the [1,1,1] scenario), the counter advances by exactly
that count whether or not any page conversion or upload failed. -/
theorem processArtifact_adv_agree (e : PdfEnv) (i start : Nat) (s : St)
    (fail : Bool) (m : Nat) (hm : e.preCount = some m)
    (h200 : e.dlResp = Resp.status 200) (hop : e.openPages = some m) :
    (processArtifact e i start s fail).2.1 = m := by
  unfold processArtifact
  dsimp only
  by_cases hall : allExpectedExist e s.store start = true
  · rw [if_pos hall]
    simp [expectedPages, hm]
  · rw [if_neg hall, if_pos h200]
    dsimp only
    simp [hop]

theorem scrapeLoop_slots_chain :
    ∀ (es : List PdfEnv) (i start : Nat) (s : St) (fail : Bool),
      slotsChainB start (scrapeLoop es i start s fail).2.2 = true := by
  intro es
  induction es with
  | nil => intro i start s fail; rfl
  | cons e rest ih =>
    intro i start s fail
    show slotsChainB start (scrapeLoop (e :: rest) i start s fail).2.2 = true
    conv_lhs => rw [scrapeLoop]
    dsimp only
    rw [slotsChainB]
    simp [ih]

theorem scrapeLoop_slots_adv :
    ∀ (es : List PdfEnv) (i start : Nat) (s : St) (fail : Bool),
      List.Forall₂ (fun e (slot : Nat × Nat) =>
        (e.dlResp ≠ Resp.status 200 → slot.2 = expectedPages e) ∧
        (∀ m, e.preCount = some m → e.dlResp = Resp.status 200 →
          e.openPages = some m → slot.2 = m))
        es (scrapeLoop es i start s fail).2.2 := by
  intro es
  induction es with
  | nil => intro i start s fail; exact List.Forall₂.nil
  | cons e rest ih =>
    intro i start s fail
    show List.Forall₂ _ (e :: rest) (scrapeLoop (e :: rest) i start s fail).2.2
    conv_rhs => rw [scrapeLoop]
    dsimp only
    refine List.Forall₂.cons ⟨?_, ?_⟩ (ih (i + 1) _ _ _)
    · intro h
      exact processArtifact_adv_dlfail e i start s fail h
    · intro m hm h200 hop
      exact processArtifact_adv_agree e i start s fail m hm h200 hop

/-- Claim C1: for every date the (start page, advance) slots that
`scrape_date` assigns to the discovered artifacts form a contiguous
1-based sequence — the first slot starts at 1 and every slot starts
where the previous one ended; an artifact that fails to download
consumes exactly its expected page count, and an artifact whose
pre-checked, downloaded and actual page counts agree consumes that
count even when its conversions or uploads fail.  In the concrete
[1,1,1] scenario with the second artifact failing, the slots are
(1,1), (2,1), (3,1) — the third artifact's page is numbered 3, not 2 —
and exactly pages 1 and 3 are stored. -/
theorem page_numbering_contiguous (es : List PdfEnv) (store0 : List Nat) :
    slotsChainB 1 (scrape_date es store0).2.2 = true ∧
    List.Forall₂ (fun e (slot : Nat × Nat) =>
      (e.dlResp ≠ Resp.status 200 → slot.2 = expectedPages e) ∧
      (∀ m, e.preCount = some m → e.dlResp = Resp.status 200 →
        e.openPages = some m → slot.2 = m))
      es (scrape_date es store0).2.2 ∧
    (scrape_date envSlots111 []).2.2 = [(1, 1), (2, 1), (3, 1)] ∧
    (scrape_date envSlots111 []).1.store = [1, 3] := by
  refine ⟨?_, ?_, by decide, by decide⟩
  · exact scrapeLoop_slots_chain es 0 1 (initSt store0) false
  · exact scrapeLoop_slots_adv es 0 1 (initSt store0) false

/-- Witness for C1: the [1,1,1] scenario instantiated — the chain
property holds and the third slot starts at page 3. -/
theorem page_numbering_contiguous_witness :
    slotsChainB 1 (scrape_date envSlots111 []).2.2 = true ∧
    (scrape_date envSlots111 []).2.2 = [(1, 1), (2, 1), (3, 1)] := by
  exact ⟨(page_numbering_contiguous envSlots111 []).1,
    (page_numbering_contiguous envSlots111 []).2.2.1⟩

end HKScraper
